import Mathlib

/-!
Shallow embedding of `src/client/src/components/AddProductForm.jsx`
(ShopSmart-POS-System/Client).

Modelling conventions:
* Form values are JS strings, embedded as Lean `String`.
* JS numbers are embedded exactly: `parseInt` results as `Option Int` and
  `parseFloat` results as `Option ℚ`, with `none` standing for `NaN`.
  IEEE-754 double rounding is not modelled (the values appearing in the
  validators are far below the 2^53 exactness threshold), and the
  `Infinity` production of `parseFloat` is folded into `none`; neither
  affects any validator branch studied here.
* JS string truthiness (`!value`) is `value = ""`; JS `a || b` on a string
  `a` takes `b` exactly when `a` is absent or empty (`jsOrDefault`).
* `String.length` counts characters where JS counts UTF-16 code units;
  they agree on all BMP inputs.
* The async `handleSubmit` is embedded as the list of observable effects
  (state setters, toasts, the POST, the `onClose` call) it performs in
  program order, parameterised by the server's response; `runTrace` folds
  the state-affecting events back onto the component state.
-/

/-- The five field identifiers of the form, in the order of `INPUT_FIELDS`. -/
inductive FieldId where
  | pName
  | unitPrice
  | inStockCount
  | lowStockCount
  | categoryID
deriving DecidableEq, Repr

/-- The controlled-input state: one string per field
(JSX object literal `INITIAL_FORM_STATE` and its updates). -/
structure FormData where
  pName : String
  unitPrice : String
  inStockCount : String
  lowStockCount : String
  categoryID : String
deriving DecidableEq, Repr

/-- `formData[field.id]`. -/
def FormData.get (fd : FormData) : FieldId → String
  | .pName => fd.pName
  | .unitPrice => fd.unitPrice
  | .inStockCount => fd.inStockCount
  | .lowStockCount => fd.lowStockCount
  | .categoryID => fd.categoryID

/-- `{ ...prev, [name]: value }` on the form data. -/
def FormData.set (fd : FormData) : FieldId → String → FormData
  | .pName, v => { fd with pName := v }
  | .unitPrice, v => { fd with unitPrice := v }
  | .inStockCount, v => { fd with inStockCount := v }
  | .lowStockCount, v => { fd with lowStockCount := v }
  | .categoryID, v => { fd with categoryID := v }

/-- `INITIAL_FORM_STATE`: every field starts as the empty string. -/
def INITIAL_FORM_STATE : FormData :=
  { pName := "", unitPrice := "", inStockCount := "", lowStockCount := "",
    categoryID := "" }

/-- Longest leading run of decimal digits: accumulated value, number of
digits consumed, rest of the input. -/
def takeDigits (acc n : Nat) : List Char → Nat × Nat × List Char
  | [] => (acc, n, [])
  | c :: cs =>
    if c.isDigit then takeDigits (acc * 10 + (c.toNat - 48)) (n + 1) cs
    else (acc, n, c :: cs)

/-- Longest leading run of hexadecimal digits (for `parseInt`'s implicit
radix-16 path on a `0x` prefix). -/
def takeHexDigits (acc n : Nat) : List Char → Nat × Nat × List Char
  | [] => (acc, n, [])
  | c :: cs =>
    if c.isDigit then takeHexDigits (acc * 16 + (c.toNat - 48)) (n + 1) cs
    else if 'a' ≤ c ∧ c ≤ 'f' then takeHexDigits (acc * 16 + (c.toNat - 87)) (n + 1) cs
    else if 'A' ≤ c ∧ c ≤ 'F' then takeHexDigits (acc * 16 + (c.toNat - 55)) (n + 1) cs
    else (acc, n, c :: cs)

/-- JS `parseInt(value)` (radix argument omitted): skip leading whitespace,
optional sign, an optional `0x`/`0X` prefix switching to hexadecimal, then
the longest run of digits; `NaN` (here `none`) when no digit is consumed.
Precision loss of results beyond 2^53 is not modelled. -/
def jsParseInt (s : String) : Option Int :=
  let cs := s.toList.dropWhile Char.isWhitespace
  let (sgn, cs1) : Int × List Char :=
    match cs with
    | '-' :: r => (-1, r)
    | '+' :: r => (1, r)
    | r => (1, r)
  match cs1 with
  | '0' :: 'x' :: r | '0' :: 'X' :: r =>
    let (v, n, _) := takeHexDigits 0 0 r
    if n = 0 then none else some (sgn * v)
  | r =>
    let (v, n, _) := takeDigits 0 0 r
    if n = 0 then none else some (sgn * v)

/-- JS `parseFloat(value)`: skip leading whitespace, optional sign, then the
longest prefix of the form `digits [. digits] [e[±]digits]` (at least one
digit before or after the dot); `NaN` (here `none`) otherwise.  The decimal
`±ip.fp e±ev` is kept exact, as the rational
`±(ip·10^nf + fp)·10^(±ev) / 10^nf` built with `mkRat`. -/
def jsParseFloat (s : String) : Option ℚ :=
  let cs := s.toList.dropWhile Char.isWhitespace
  let (sgn, cs1) : Int × List Char :=
    match cs with
    | '-' :: r => (-1, r)
    | '+' :: r => (1, r)
    | r => (1, r)
  let (ip, ni, cs2) := takeDigits 0 0 cs1
  let (fp, nf, cs3) :=
    match cs2 with
    | '.' :: r => takeDigits 0 0 r
    | r => (0, 0, r)
  if ni = 0 ∧ nf = 0 then none
  else
    let num : Int := sgn * ((ip : Int) * 10 ^ nf + (fp : Int))
    match cs3 with
    | 'e' :: r | 'E' :: r =>
      let (eneg, r2) : Bool × List Char :=
        match r with
        | '-' :: r3 => (true, r3)
        | '+' :: r3 => (false, r3)
        | r3 => (false, r3)
      let (ev, en, _) := takeDigits 0 0 r2
      if en = 0 then some (mkRat num (10 ^ nf))
      else if eneg then some (mkRat num (10 ^ nf * 10 ^ ev))
      else some (mkRat (num * 10 ^ ev) (10 ^ nf))
    | _ => some (mkRat num (10 ^ nf))

/-- JS `value.trim()`: strip leading and trailing whitespace.  Implemented
over the character list (the library `String.trim` recurses on byte
positions, which the kernel cannot evaluate). -/
def jsTrim (s : String) : String :=
  String.mk
    (((s.toList.dropWhile Char.isWhitespace).reverse.dropWhile
        Char.isWhitespace).reverse)

/-- `INPUT_FIELDS[0].validate` (`pName`): required presence (whitespace-only
is empty after `trim`), then a 100-character cap on the untrimmed value. -/
def validate_pName (value : String) : String :=
  if jsTrim value = "" then "Product name is required"
  else if value.length > 100 then "Product name cannot exceed 100 characters"
  else ""

/-- The literal `999999.99` of the price bound, as the rational
99999999/100 (`Rat.ofScientific` numerals do not reduce in the kernel, so
the exact fraction is used instead; `PRICE_LIMIT_eq` checks it equals the
literal). -/
def PRICE_LIMIT : ℚ := mkRat 99999999 100

/-- `INPUT_FIELDS[1].validate` (`unitPrice`): required, `parseFloat` must
succeed and be nonnegative, and at most 999999.99. -/
def validate_unitPrice (value : String) : String :=
  if value = "" then "Unit price is required"
  else
    match jsParseFloat value with
    | none => "Please enter a valid positive price"
    | some price =>
      if price < 0 then "Please enter a valid positive price"
      else if price > PRICE_LIMIT then "Price is too high"
      else ""

/-- `INPUT_FIELDS[2].validate` (`inStockCount`): required, `parseInt` must
succeed and be nonnegative, and at most 2147483647. -/
def validate_inStockCount (value : String) : String :=
  if value = "" then "Stock count is required"
  else
    match jsParseInt value with
    | none => "Please enter a valid positive number"
    | some count =>
      if count < 0 then "Please enter a valid positive number"
      else if count > 2147483647 then "Stock count is too high"
      else ""

/-- `INPUT_FIELDS[3].validate` (`lowStockCount`): required, `parseInt` must
succeed and be nonnegative; the cross-field check `count >
parseInt(formData.inStockCount)` compares against `NaN` when `inStockCount`
does not parse, and a JS comparison with `NaN` is false, so the branch is
skipped in that case. -/
def validate_lowStockCount (value : String) (formData : FormData) : String :=
  if value = "" then "Low stock threshold is required"
  else
    match jsParseInt value with
    | none => "Please enter a valid positive number"
    | some count =>
      if count < 0 then "Please enter a valid positive number"
      else if (match jsParseInt formData.inStockCount with
               | none => false
               | some inStock => count > inStock) then
        "Low stock alert cannot be higher than current stock"
      else ""

/-- `INPUT_FIELDS[4].validate` (`categoryID`): required, `parseInt` must
succeed and land in [1000, 9999]. -/
def validate_categoryID (value : String) : String :=
  if value = "" then "Category ID is required"
  else
    match jsParseInt value with
    | none => "Please enter a valid 4-digit category ID (1000-9999)"
    | some categoryId =>
      if categoryId < 1000 ∨ categoryId > 9999 then
        "Please enter a valid 4-digit category ID (1000-9999)"
      else ""

/-- One entry of the `INPUT_FIELDS` array: identifier, display metadata and
the validation closure `(value, formData) → message`.  The validators that
ignore the form state in the source are wrapped to the common two-argument
shape here exactly as the source calls them. -/
structure InputField where
  id : FieldId
  label : String
  type : String
  min : Option String := none
  max : Option String := none
  step : Option String := none
  placeholder : Option String := none
  validate : String → FormData → String

/-- The `INPUT_FIELDS` array, in source order. -/
def INPUT_FIELDS : List InputField :=
  [{ id := .pName, label := "Product Name", type := "text",
     validate := fun value _ => validate_pName value },
   { id := .unitPrice, label := "Unit Price", type := "number",
     min := some "0", step := some "0.01",
     validate := fun value _ => validate_unitPrice value },
   { id := .inStockCount, label := "Current Stock Count", type := "number",
     min := some "0",
     validate := fun value _ => validate_inStockCount value },
   { id := .lowStockCount, label := "Low Stock Alert Threshold", type := "number",
     min := some "0",
     validate := fun value formData => validate_lowStockCount value formData },
   { id := .categoryID, label := "Category ID (4 digits)", type := "number",
     min := some "1000", max := some "9999", placeholder := some "1000-9999",
     validate := fun value _ => validate_categoryID value }]

/-- `INPUT_FIELDS.find((f) => f.id === name)`. -/
def findField (name : FieldId) : Option InputField :=
  INPUT_FIELDS.find? (fun f => f.id == name)

/-- The validator attached to a field id (what `findField` returns applies,
see `findField_validate`). -/
def validateField (name : FieldId) (value : String) (fd : FormData) : String :=
  match name with
  | .pName => validate_pName value
  | .unitPrice => validate_unitPrice value
  | .inStockCount => validate_inStockCount value
  | .lowStockCount => validate_lowStockCount value fd
  | .categoryID => validate_categoryID value

/-- The `errors` object: per-field entry that may be absent (`none`, as after
mount) or present (possibly the empty string, as written by `handleChange`). -/
structure ErrorMap where
  pName : Option String := none
  unitPrice : Option String := none
  inStockCount : Option String := none
  lowStockCount : Option String := none
  categoryID : Option String := none
deriving DecidableEq, Repr

/-- `errors[field.id]`. -/
def ErrorMap.get (em : ErrorMap) : FieldId → Option String
  | .pName => em.pName
  | .unitPrice => em.unitPrice
  | .inStockCount => em.inStockCount
  | .lowStockCount => em.lowStockCount
  | .categoryID => em.categoryID

/-- `{ ...prev, [name]: e }` on the error object. -/
def ErrorMap.set (em : ErrorMap) : FieldId → Option String → ErrorMap
  | .pName, e => { em with pName := e }
  | .unitPrice, e => { em with unitPrice := e }
  | .inStockCount, e => { em with inStockCount := e }
  | .lowStockCount, e => { em with lowStockCount := e }
  | .categoryID, e => { em with categoryID := e }

/-- The component's `useState` triple: `formData`, `errors`, `isSubmitting`. -/
structure ComponentState where
  formData : FormData
  errors : ErrorMap
  isSubmitting : Bool
deriving DecidableEq, Repr

/-- The state right after mount: empty draft, empty error object, idle. -/
def initialComponentState : ComponentState :=
  { formData := INITIAL_FORM_STATE, errors := {}, isSubmitting := false }

/-- `handleChange` for a change event carrying `name` and `value`:
`setFormData((prev) => ({ ...prev, [name]: value }))`, then the changed
field is re-validated — against the render's `formData` closure, i.e. the
pre-change draft — and its error entry written
(`setErrors((prev) => ({ ...prev, [name]: error }))`). -/
def handleChange (s : ComponentState) (name : FieldId) (value : String) :
    ComponentState :=
  match findField name with
  | none => s
  | some field =>
    { s with
      formData := s.formData.set name value,
      errors := s.errors.set name (some (field.validate value s.formData)) }

/-- The validation loop of `handleSubmit`: fold over `INPUT_FIELDS`, record
each non-empty error in `newErrors` and clear `isValid` when one is found.
Starts from the empty object and `isValid = true`. -/
def validateAll (fd : FormData) : ErrorMap × Bool :=
  INPUT_FIELDS.foldl
    (fun acc field =>
      let error := field.validate (fd.get field.id) fd
      if error ≠ "" then (acc.1.set field.id (some error), false) else acc)
    ({}, true)

/-- `isValid` as a predicate on the draft: every field's validator, applied
to that field's value and the full form state, returns the empty string. -/
def formIsValid (fd : FormData) : Bool :=
  INPUT_FIELDS.all (fun field => field.validate (fd.get field.id) fd == "")

/-- The coerced payload built in `handleSubmit`
(`{ ...formData, unitPrice: parseFloat(...), ... }`); `none` components
stand for `NaN` coercions, impossible on a validated draft. -/
structure ProcessedData where
  pName : String
  unitPrice : Option ℚ
  inStockCount : Option Int
  lowStockCount : Option Int
  categoryID : Option Int
deriving DecidableEq, Repr

/-- `processedData`: the original `pName` string plus the numeric coercions. -/
def processForm (fd : FormData) : ProcessedData :=
  { pName := fd.pName
    unitPrice := jsParseFloat fd.unitPrice
    inStockCount := jsParseInt fd.inStockCount
    lowStockCount := jsParseInt fd.lowStockCount
    categoryID := jsParseInt fd.categoryID }

/-- Outcome of the awaited `axios.post`: a 2xx response, or a rejection
whose `error.response?.data?.message` chain yields `some` string or
nothing (absent field, absent body, or no response at all). -/
inductive ServerResponse where
  | ok
  | err (message : Option String)
deriving DecidableEq, Repr

/-- JS `a || b` for `a` the optional `message` string: `b` is taken exactly
when the chain is absent or the string is empty (the two falsy cases). -/
def jsOrDefault (a : Option String) (b : String) : String :=
  match a with
  | some s => if s = "" then b else s
  | none => b

/-- One observable effect of `handleSubmit`, in program order. -/
inductive Event where
  | setFormData (fd : FormData)
  | setErrors (em : ErrorMap)
  | setSubmitting (b : Bool)
  | toastLoading (msg : String)
  | toastSuccess (msg : String)
  | toastError (msg : String)
  | post (url : String) (data : ProcessedData)
  | close
deriving DecidableEq, Repr

/-- The effect trace of `handleSubmit` on draft `fd` when the network call
(if reached) resolves as `resp`: validate all fields and `setErrors`; on
any error, one aggregate `toast.error` and return; otherwise set the
submitting flag, show the loading toast, POST the coerced payload, then
either (success) success toast, reset the draft, call `onClose`, or
(failure) `toast.error(error.response?.data?.message || "Failed to add
product")`; in both cases `finally` clears the submitting flag. -/
def handleSubmitTrace (fd : FormData) (resp : ServerResponse) : List Event :=
  let va := validateAll fd
  Event.setErrors va.1 ::
    (if va.2 = false then
      [Event.toastError "Please fix the form errors before submitting"]
    else
      [Event.setSubmitting true,
       Event.toastLoading "Adding product...",
       Event.post "http://localhost:3000/api/products/add" (processForm fd)] ++
      (match resp with
       | .ok =>
         [Event.toastSuccess "Successfully added the product!",
          Event.setFormData INITIAL_FORM_STATE,
          Event.close]
       | .err message =>
         [Event.toastError (jsOrDefault message "Failed to add product")]) ++
      [Event.setSubmitting false])

/-- How each effect acts on the component state (toasts, the POST and the
`onClose` call do not touch it). -/
def applyEvent (s : ComponentState) : Event → ComponentState
  | .setFormData fd => { s with formData := fd }
  | .setErrors em => { s with errors := em }
  | .setSubmitting b => { s with isSubmitting := b }
  | _ => s

/-- Replay a trace on a component state. -/
def runTrace (s : ComponentState) (es : List Event) : ComponentState :=
  es.foldl applyEvent s

/-- The payloads POSTed in a trace. -/
def postedData (es : List Event) : List ProcessedData :=
  es.filterMap (fun e => match e with | .post _ d => some d | _ => none)

/-- The texts of the `toast.error` notifications in a trace. -/
def errorToasts (es : List Event) : List String :=
  es.filterMap (fun e => match e with | .toastError m => some m | _ => none)

/-- A concrete fully valid draft, used to instantiate the general theorems. -/
def sampleValidDraft : FormData :=
  { pName := "Widget", unitPrice := "19.99", inStockCount := "10",
    lowStockCount := "5", categoryID := "1234" }

/-- A concrete draft whose `inStockCount` does not parse to an integer. -/
def nanStockDraft : FormData :=
  { pName := "Widget", unitPrice := "19.99", inStockCount := "",
    lowStockCount := "5", categoryID := "1234" }

/-! ### Helper lemmas -/

/-- Sanity check: the fraction used for the price bound is the source's
literal `999999.99`. -/
theorem PRICE_LIMIT_eq : PRICE_LIMIT = 999999.99 := by
  norm_num [PRICE_LIMIT, mkRat, Rat.normalize]

theorem jsParseInt_empty : jsParseInt "" = none := rfl

theorem jsParseFloat_empty : jsParseFloat "" = none := rfl

/-- A string on which `parseInt` succeeds is not the empty string. -/
theorem ne_empty_of_jsParseInt {v : String} {k : Int}
    (h : jsParseInt v = some k) : v ≠ "" := by
  intro hv
  rw [hv, jsParseInt_empty] at h
  exact Option.noConfusion h

/-- A string on which `parseFloat` succeeds is not the empty string. -/
theorem ne_empty_of_jsParseFloat {v : String} {q : ℚ}
    (h : jsParseFloat v = some q) : v ≠ "" := by
  intro hv
  rw [hv, jsParseFloat_empty] at h
  exact Option.noConfusion h

/-- The `isValid` component of the submit-time validation fold: it is the
conjunction of the incoming flag with emptiness of every remaining field's
error. -/
theorem validateAll_go (l : List InputField) (fd : FormData) (em : ErrorMap)
    (b : Bool) :
    (l.foldl
      (fun acc field =>
        let error := field.validate (fd.get field.id) fd
        if error ≠ "" then (acc.1.set field.id (some error), false) else acc)
      (em, b)).2
    = (b && l.all (fun field => field.validate (fd.get field.id) fd == "")) := by
  induction l generalizing em b with
  | nil => simp
  | cons f t ih =>
    rw [List.all_cons]
    by_cases h : f.validate (fd.get f.id) fd = ""
    · have hstep :
          List.foldl
            (fun (acc : ErrorMap × Bool) field =>
              let error := field.validate (fd.get field.id) fd
              if error ≠ "" then (acc.1.set field.id (some error), false)
              else acc)
            (em, b) (f :: t)
          = List.foldl
              (fun acc field =>
                let error := field.validate (fd.get field.id) fd
                if error ≠ "" then (acc.1.set field.id (some error), false)
                else acc)
              (em, b) t := by
        rw [List.foldl_cons]
        congr 1
        simp [h]
      rw [hstep, ih]
      simp [h]
    · have hstep :
          List.foldl
            (fun (acc : ErrorMap × Bool) field =>
              let error := field.validate (fd.get field.id) fd
              if error ≠ "" then (acc.1.set field.id (some error), false)
              else acc)
            (em, b) (f :: t)
          = List.foldl
              (fun acc field =>
                let error := field.validate (fd.get field.id) fd
                if error ≠ "" then (acc.1.set field.id (some error), false)
                else acc)
              (em.set f.id (some (f.validate (fd.get f.id) fd)), false) t := by
        rw [List.foldl_cons]
        congr 1
        simp [h]
      rw [hstep, ih]
      simp [h]

/-- `isValid` as computed by `handleSubmit` agrees with `formIsValid`. -/
theorem validateAll_snd (fd : FormData) : (validateAll fd).2 = formIsValid fd := by
  simpa [validateAll, formIsValid] using validateAll_go INPUT_FIELDS fd {} true

/-- `formIsValid` holds exactly when every field's validator, applied to
that field's value and the full form state, returns the empty string. -/
theorem formIsValid_iff (fd : FormData) :
    formIsValid fd = true ↔
      ∀ field ∈ INPUT_FIELDS, field.validate (fd.get field.id) fd = "" := by
  simp [formIsValid, List.all_eq_true, beq_iff_eq]

/-- `unitPrice` acceptance on a parsing value: empty error exactly for
prices in `[0, 999999.99]`. -/
theorem validate_unitPrice_iff {v : String} {q : ℚ}
    (h : jsParseFloat v = some q) :
    validate_unitPrice v = "" ↔ 0 ≤ q ∧ q ≤ PRICE_LIMIT := by
  have hne : v ≠ "" := ne_empty_of_jsParseFloat h
  simp only [validate_unitPrice, h, if_neg hne]
  by_cases h1 : q < 0
  · rw [if_pos h1]
    constructor
    · intro hs
      exact absurd hs (by decide)
    · rintro ⟨h0, -⟩
      linarith
  · rw [if_neg h1]
    by_cases h2 : q > PRICE_LIMIT
    · rw [if_pos h2]
      constructor
      · intro hs
        exact absurd hs (by decide)
      · rintro ⟨-, hle⟩
        linarith
    · rw [if_neg h2]
      exact iff_of_true rfl ⟨le_of_not_lt h1, le_of_not_lt h2⟩

/-- `categoryID` acceptance on a non-empty value: empty error exactly when
`parseInt` yields an integer in `[1000, 9999]`. -/
theorem validate_categoryID_iff {v : String} (hv : v ≠ "") :
    validate_categoryID v = "" ↔
      ∃ k : Int, jsParseInt v = some k ∧ 1000 ≤ k ∧ k ≤ 9999 := by
  cases hp : jsParseInt v with
  | none =>
    simp only [validate_categoryID, hp, if_neg hv]
    constructor
    · intro hs
      exact absurd hs (by decide)
    · rintro ⟨k, hk, -⟩
      exact Option.noConfusion hk
  | some k =>
    simp only [validate_categoryID, hp, if_neg hv]
    by_cases hr : k < 1000 ∨ k > 9999
    · rw [if_pos hr]
      constructor
      · intro hs
        exact absurd hs (by decide)
      · rintro ⟨k2, hk2, h1, h2⟩
        obtain rfl : k = k2 := Option.some_injective _ hk2
        rcases hr with hr | hr
        · linarith
        · linarith
    · rw [if_neg hr]
      push_neg at hr
      exact iff_of_true rfl ⟨k, rfl, hr.1, hr.2⟩

/-- `lowStockCount` cross-field rejection: when both the value and the
draft's `inStockCount` parse and the value is strictly greater, the
validator returns a non-empty message. -/
theorem validate_lowStockCount_reject {v : String} {fd : FormData} {k n : Int}
    (hv : jsParseInt v = some k) (hin : jsParseInt fd.inStockCount = some n)
    (hgt : n < k) : validate_lowStockCount v fd ≠ "" := by
  have hne : v ≠ "" := ne_empty_of_jsParseInt hv
  simp only [validate_lowStockCount, hv, hin, if_neg hne]
  by_cases hk : k < 0
  · rw [if_pos hk]
    decide
  · rw [if_neg hk, if_pos (decide_eq_true hgt)]
    decide

/-- `lowStockCount` with an unparsable `inStockCount`: the `NaN` comparison
is false, so every nonnegative parsing value passes the validator. -/
theorem validate_lowStockCount_nan {v : String} {fd : FormData} {k : Int}
    (hin : jsParseInt fd.inStockCount = none) (hv : jsParseInt v = some k)
    (hk : 0 ≤ k) : validate_lowStockCount v fd = "" := by
  have hne : v ≠ "" := ne_empty_of_jsParseInt hv
  simp only [validate_lowStockCount, hv, hin, if_neg hne]
  rw [if_neg (not_lt.mpr hk)]
  simp

/-- `inStockCount` rejection whenever its own value does not parse (empty
or non-numeric). -/
theorem validate_inStockCount_nan {x : String} (h : jsParseInt x = none) :
    validate_inStockCount x ≠ "" := by
  by_cases hx : x = ""
  · simp only [validate_inStockCount, if_pos hx]
    decide
  · simp only [validate_inStockCount, h, if_neg hx]
    decide

/-- Shape of the submit trace when validation fails: set the error map,
one aggregate error toast, nothing else. -/
theorem handleSubmitTrace_invalid {fd : FormData}
    (h : formIsValid fd = false) (resp : ServerResponse) :
    handleSubmitTrace fd resp =
      [Event.setErrors (validateAll fd).1,
       Event.toastError "Please fix the form errors before submitting"] := by
  simp [handleSubmitTrace, validateAll_snd, h]

/-- Shape of the submit trace on a valid draft and a successful POST. -/
theorem handleSubmitTrace_valid_ok {fd : FormData}
    (h : formIsValid fd = true) :
    handleSubmitTrace fd .ok =
      [Event.setErrors (validateAll fd).1,
       Event.setSubmitting true,
       Event.toastLoading "Adding product...",
       Event.post "http://localhost:3000/api/products/add" (processForm fd),
       Event.toastSuccess "Successfully added the product!",
       Event.setFormData INITIAL_FORM_STATE,
       Event.close,
       Event.setSubmitting false] := by
  simp [handleSubmitTrace, validateAll_snd, h]

/-- Shape of the submit trace on a valid draft and a failed POST. -/
theorem handleSubmitTrace_valid_err {fd : FormData}
    (h : formIsValid fd = true) (msg : Option String) :
    handleSubmitTrace fd (.err msg) =
      [Event.setErrors (validateAll fd).1,
       Event.setSubmitting true,
       Event.toastLoading "Adding product...",
       Event.post "http://localhost:3000/api/products/add" (processForm fd),
       Event.toastError (jsOrDefault msg "Failed to add product"),
       Event.setSubmitting false] := by
  simp [handleSubmitTrace, validateAll_snd, h]

example : jsParseInt "10" = some 10 := by decide
example : jsParseInt "" = none := by decide
example : jsParseInt "  -42abc" = some (-42) := by decide
example : jsParseInt "0x1A" = some 26 := by decide
example : jsParseFloat "999999.99" = some (mkRat 99999999 100) := by decide
example : jsParseFloat "1e3" = some 1000 := by decide
example : jsParseFloat ".5" = some (mkRat 1 2) := by decide
example : validate_unitPrice "999999.99" = "" := by decide
example : validate_unitPrice "1000000" = "Price is too high" := by decide
example : validate_categoryID "999" ≠ "" := by decide
example : validate_categoryID "1000" = "" := by decide

/-! ### Claim theorems -/

/-- C1: `handleSubmit` issues the POST only when every field's validator,
applied to that field's value and the full form state, returns the empty
string; if any validator returns a non-empty message, no network call is
made and a single aggregate error notification is shown. -/
theorem claim_submit_guard (fd : FormData) (resp : ServerResponse) :
    (postedData (handleSubmitTrace fd resp) ≠ [] →
      ∀ field ∈ INPUT_FIELDS, field.validate (fd.get field.id) fd = "") ∧
    ((∃ field ∈ INPUT_FIELDS, field.validate (fd.get field.id) fd ≠ "") →
      postedData (handleSubmitTrace fd resp) = [] ∧
      errorToasts (handleSubmitTrace fd resp) =
        ["Please fix the form errors before submitting"]) := by
  by_cases h : formIsValid fd = true
  · refine ⟨fun _ => (formIsValid_iff fd).mp h, ?_⟩
    rintro ⟨f, hf, hne⟩
    exact absurd ((formIsValid_iff fd).mp h f hf) hne
  · have hf : formIsValid fd = false := by
      revert h
      cases formIsValid fd <;> simp
    rw [handleSubmitTrace_invalid hf resp]
    exact ⟨fun hn => absurd rfl hn, fun _ => ⟨rfl, rfl⟩⟩

/-- C1, instantiated: on the all-empty initial draft no POST is issued and
the single aggregate notification is shown. -/
theorem claim_submit_guard_witness :
    postedData (handleSubmitTrace INITIAL_FORM_STATE ServerResponse.ok) = [] ∧
    errorToasts (handleSubmitTrace INITIAL_FORM_STATE ServerResponse.ok) =
      ["Please fix the form errors before submitting"] :=
  (claim_submit_guard INITIAL_FORM_STATE ServerResponse.ok).2 (by decide)

/-- C2: on a fully valid draft, submitting POSTs exactly one payload — the
original `pName` string together with `parseFloat` of `unitPrice` and
`parseInt` of the counts and the category id — and on a successful
response the draft is reset to the initial empty state and `onClose` is
invoked. -/
theorem claim_valid_submit (fd : FormData) (resp : ServerResponse)
    (em : ErrorMap) (b : Bool)
    (h : ∀ field ∈ INPUT_FIELDS, field.validate (fd.get field.id) fd = "") :
    postedData (handleSubmitTrace fd resp) =
      [{ pName := fd.pName,
         unitPrice := jsParseFloat fd.unitPrice,
         inStockCount := jsParseInt fd.inStockCount,
         lowStockCount := jsParseInt fd.lowStockCount,
         categoryID := jsParseInt fd.categoryID }] ∧
    (resp = ServerResponse.ok →
      (runTrace ⟨fd, em, b⟩ (handleSubmitTrace fd resp)).formData =
        INITIAL_FORM_STATE ∧
      Event.close ∈ handleSubmitTrace fd resp) := by
  have hv : formIsValid fd = true := (formIsValid_iff fd).mpr h
  cases resp with
  | ok =>
    rw [handleSubmitTrace_valid_ok hv]
    refine ⟨rfl, fun _ => ⟨rfl, ?_⟩⟩
    simp
  | err msg =>
    rw [handleSubmitTrace_valid_err hv msg]
    exact ⟨rfl, fun hok => ServerResponse.noConfusion hok⟩

/-- C2, instantiated at a concrete valid draft and a successful response. -/
theorem claim_valid_submit_witness :
    postedData (handleSubmitTrace sampleValidDraft ServerResponse.ok) =
      [{ pName := sampleValidDraft.pName,
         unitPrice := jsParseFloat sampleValidDraft.unitPrice,
         inStockCount := jsParseInt sampleValidDraft.inStockCount,
         lowStockCount := jsParseInt sampleValidDraft.lowStockCount,
         categoryID := jsParseInt sampleValidDraft.categoryID }] ∧
    (ServerResponse.ok = ServerResponse.ok →
      (runTrace ⟨sampleValidDraft, {}, false⟩
          (handleSubmitTrace sampleValidDraft ServerResponse.ok)).formData =
        INITIAL_FORM_STATE ∧
      Event.close ∈ handleSubmitTrace sampleValidDraft ServerResponse.ok) :=
  claim_valid_submit sampleValidDraft ServerResponse.ok {} false (by decide)

/-- C3, counterexample: the claim says the shown text equals the server's
`message` field whenever that field is present; but for the failure body
`{message: ""}` — a present field — the code's `||` falls through to the
generic fallback, which differs from the present message. -/
theorem claim_failure_message_counterexample :
    formIsValid sampleValidDraft = true ∧
    errorToasts
        (handleSubmitTrace sampleValidDraft (ServerResponse.err (some ""))) =
      ["Failed to add product"] ∧
    "Failed to add product" ≠ "" :=
  ⟨by decide, by decide, by decide⟩

/-- C3, amended: on a failed POST the shown error text is the server
message when present and non-empty, and the generic fallback otherwise;
the draft is unchanged and the submitting flag ends cleared. -/
theorem claim_failure_message_amended (fd : FormData) (msg : Option String)
    (em : ErrorMap) (b : Bool)
    (h : ∀ field ∈ INPUT_FIELDS, field.validate (fd.get field.id) fd = "") :
    errorToasts (handleSubmitTrace fd (ServerResponse.err msg)) =
      [match msg with
       | some m => if m = "" then "Failed to add product" else m
       | none => "Failed to add product"] ∧
    (runTrace ⟨fd, em, b⟩
        (handleSubmitTrace fd (ServerResponse.err msg))).formData = fd ∧
    (runTrace ⟨fd, em, b⟩
        (handleSubmitTrace fd (ServerResponse.err msg))).isSubmitting
      = false := by
  have hv : formIsValid fd = true := (formIsValid_iff fd).mpr h
  rw [handleSubmitTrace_valid_err hv msg]
  exact ⟨rfl, rfl, rfl⟩

/-- C3 (amended), instantiated: the simulated failure body
`{message: "Category not found"}` surfaces exactly that text, preserves
the draft and re-enables the form. -/
theorem claim_failure_message_witness :
    errorToasts (handleSubmitTrace sampleValidDraft
        (ServerResponse.err (some "Category not found"))) =
      [match (some "Category not found" : Option String) with
       | some m => if m = "" then "Failed to add product" else m
       | none => "Failed to add product"] ∧
    (runTrace ⟨sampleValidDraft, {}, false⟩
        (handleSubmitTrace sampleValidDraft
          (ServerResponse.err (some "Category not found")))).formData =
      sampleValidDraft ∧
    (runTrace ⟨sampleValidDraft, {}, false⟩
        (handleSubmitTrace sampleValidDraft
          (ServerResponse.err (some "Category not found")))).isSubmitting
      = false :=
  claim_failure_message_amended sampleValidDraft (some "Category not found")
    {} false (by decide)

/-- C4: the submitting flag is raised during a submit exactly when every
validator returns the empty string; whenever it is raised, the trace ends
by clearing it (on success and on failure alike); and after the trace the
flag is never left set (it equals the incoming flag only on the aborted,
invalid path). -/
theorem claim_submitting_flag (fd : FormData) (resp : ServerResponse)
    (em : ErrorMap) (b : Bool) :
    (Event.setSubmitting true ∈ handleSubmitTrace fd resp ↔
      ∀ field ∈ INPUT_FIELDS, field.validate (fd.get field.id) fd = "") ∧
    ((∀ field ∈ INPUT_FIELDS, field.validate (fd.get field.id) fd = "") →
      (handleSubmitTrace fd resp).getLast?
        = some (Event.setSubmitting false)) ∧
    (runTrace ⟨fd, em, b⟩ (handleSubmitTrace fd resp)).isSubmitting
      = (b && !formIsValid fd) := by
  by_cases hv : formIsValid fd = true
  · cases resp with
    | ok =>
      rw [handleSubmitTrace_valid_ok hv]
      refine ⟨iff_of_true (by simp) ((formIsValid_iff fd).mp hv),
        fun _ => rfl, ?_⟩
      rw [hv]
      simp [runTrace, applyEvent]
    | err msg =>
      rw [handleSubmitTrace_valid_err hv msg]
      refine ⟨iff_of_true (by simp) ((formIsValid_iff fd).mp hv),
        fun _ => rfl, ?_⟩
      rw [hv]
      simp [runTrace, applyEvent]
  · have hf : formIsValid fd = false := by
      revert hv
      cases formIsValid fd <;> simp
    rw [handleSubmitTrace_invalid hf resp]
    refine ⟨iff_of_false (by simp) ?_, fun hall => ?_, ?_⟩
    · intro hall
      rw [(formIsValid_iff fd).mpr hall] at hf
      exact Bool.noConfusion hf
    · rw [(formIsValid_iff fd).mpr hall] at hf
      exact Bool.noConfusion hf
    · rw [hf]
      simp [runTrace, applyEvent]

/-- C4, instantiated: on a concrete valid draft and a failure response the
trace ends by clearing the submitting flag. -/
theorem claim_submitting_flag_witness :
    (handleSubmitTrace sampleValidDraft (ServerResponse.err none)).getLast?
      = some (Event.setSubmitting false) :=
  (claim_submitting_flag sampleValidDraft (ServerResponse.err none)
      {} false).2.1 (by decide)

/-- C5: with a draft whose `inStockCount` is "10", the `lowStockCount`
validator rejects "11" with a cross-field message and accepts "10"; in
general any value parsing to an integer strictly greater than the parsed
`inStockCount` is rejected. -/
theorem claim_lowStock_crossfield :
    (∀ fd : FormData, fd.inStockCount = "10" →
      validate_lowStockCount "11" fd ≠ "" ∧
      validate_lowStockCount "10" fd = "") ∧
    (∀ (v : String) (fd : FormData) (k n : Int),
      jsParseInt v = some k → jsParseInt fd.inStockCount = some n → n < k →
      validate_lowStockCount v fd ≠ "") := by
  constructor
  · intro fd h
    constructor
    · exact @validate_lowStockCount_reject "11" fd 11 10 (by decide)
        (by rw [h]; decide) (by decide)
    · simp only [validate_lowStockCount, h]
      decide
  · intro v fd k n hv hin hgt
    exact validate_lowStockCount_reject hv hin hgt

/-- C5, instantiated at the concrete draft with `inStockCount` "10". -/
theorem claim_lowStock_crossfield_witness :
    validate_lowStockCount "11" sampleValidDraft ≠ "" ∧
    validate_lowStockCount "10" sampleValidDraft = "" :=
  claim_lowStock_crossfield.1 sampleValidDraft (by decide)

/-- C6: the `unitPrice` validator rejects "-1", accepts "0", rejects
"1000000" and accepts "999999.99"; in general a value parsing to a number
is accepted exactly when that number lies in [0, 999999.99]. -/
theorem claim_unitPrice_range :
    validate_unitPrice "-1" ≠ "" ∧
    validate_unitPrice "0" = "" ∧
    validate_unitPrice "1000000" ≠ "" ∧
    validate_unitPrice "999999.99" = "" ∧
    (∀ (v : String) (q : ℚ), jsParseFloat v = some q →
      (validate_unitPrice v = "" ↔ 0 ≤ q ∧ q ≤ 999999.99)) := by
  refine ⟨by decide, by decide, by decide, by decide, fun v q h => ?_⟩
  rw [← PRICE_LIMIT_eq]
  exact validate_unitPrice_iff h

/-- C6, instantiated at the value "0.5". -/
theorem claim_unitPrice_range_witness :
    jsParseFloat "0.5" = some (mkRat 1 2) ∧
    (validate_unitPrice "0.5" = "" ↔
      0 ≤ (mkRat 1 2 : ℚ) ∧ (mkRat 1 2 : ℚ) ≤ 999999.99) :=
  ⟨by decide, claim_unitPrice_range.2.2.2.2 "0.5" (mkRat 1 2) (by decide)⟩

/-- C7: the `categoryID` validator rejects "999", accepts "1000" and
"9999", and rejects "10000"; in general a non-empty value is accepted
exactly when it parses to an integer in [1000, 9999]. -/
theorem claim_categoryID_range :
    validate_categoryID "999" ≠ "" ∧
    validate_categoryID "1000" = "" ∧
    validate_categoryID "9999" = "" ∧
    validate_categoryID "10000" ≠ "" ∧
    (∀ v : String, v ≠ "" →
      (validate_categoryID v = "" ↔
        ∃ k : Int, jsParseInt v = some k ∧ 1000 ≤ k ∧ k ≤ 9999)) :=
  ⟨by decide, by decide, by decide, by decide,
    fun v hv => validate_categoryID_iff hv⟩

/-- C7, instantiated at the value "1234". -/
theorem claim_categoryID_range_witness :
    validate_categoryID "1234" = "" ↔
      ∃ k : Int, jsParseInt "1234" = some k ∧ 1000 ≤ k ∧ k ≤ 9999 :=
  claim_categoryID_range.2.2.2.2 "1234" (by decide)

/-- C8: a change event on one field updates only that field's draft entry
and only that field's error entry, leaves every other field's value and
error alone and the submitting flag untouched; the new error entry is the
changed field's validator at the new value and the post-change draft
(equal to what the code computes from the stale pre-change closure, since
no validator reads the field it validates from the form state). -/
theorem claim_handleChange_frame (s : ComponentState) (name : FieldId)
    (value : String) :
    (handleChange s name value).formData.get name = value ∧
    (∀ f : FieldId, f ≠ name →
      (handleChange s name value).formData.get f = s.formData.get f) ∧
    (handleChange s name value).errors.get name =
      some (validateField name value ((handleChange s name value).formData)) ∧
    (∀ f : FieldId, f ≠ name →
      (handleChange s name value).errors.get f = s.errors.get f) ∧
    (handleChange s name value).isSubmitting = s.isSubmitting := by
  cases name <;>
    refine ⟨rfl, ?_, rfl, ?_, rfl⟩ <;>
    · intro f hf
      cases f <;> first | rfl | exact absurd rfl hf

/-- C8, instantiated: changing `lowStockCount` leaves the `pName` draft
entry unchanged. -/
theorem claim_handleChange_frame_witness :
    (handleChange initialComponentState FieldId.lowStockCount "3").formData.get
        FieldId.pName
      = initialComponentState.formData.get FieldId.pName :=
  (claim_handleChange_frame initialComponentState FieldId.lowStockCount
      "3").2.1 FieldId.pName (by decide)

/-- C9: any value with non-empty trimmed form and more than 100 characters
is rejected by the `pName` validator with the length-cap message, and any
whitespace-only value is rejected with the required-field message. -/
theorem claim_pName_cap :
    (∀ v : String, jsTrim v ≠ "" → 100 < v.length →
      validate_pName v = "Product name cannot exceed 100 characters") ∧
    (∀ v : String, v.data.all Char.isWhitespace = true →
      validate_pName v = "Product name is required") := by
  constructor
  · intro v h1 h2
    rw [validate_pName, if_neg h1, if_pos h2]
  · intro v h
    have h1 : v.data.dropWhile Char.isWhitespace = [] := by
      rw [List.dropWhile_eq_nil_iff]
      intro x hx
      exact List.all_eq_true.mp h x hx
    have h2 : jsTrim v = "" := by
      unfold jsTrim
      rw [show v.toList = v.data from rfl, h1]
      rfl
    rw [validate_pName, if_pos h2]

/-- C9, instantiated: a 101-character name is rejected with the cap
message, and a two-space name with the required message. -/
theorem claim_pName_cap_witness :
    validate_pName (String.mk (List.replicate 101 'a'))
      = "Product name cannot exceed 100 characters" ∧
    validate_pName "  " = "Product name is required" :=
  ⟨claim_pName_cap.1 (String.mk (List.replicate 101 'a')) (by decide)
      (by decide),
    claim_pName_cap.2 "  " (by decide)⟩

/-- C10: when the draft's `inStockCount` does not parse to an integer, the
`lowStockCount` validator accepts every value parsing to a nonnegative
integer (the cross-field bound is vacuously unenforced, because the JS
comparison with `NaN` is false), and it is the `inStockCount` field's own
validator that is non-empty and blocks the submit. -/
theorem claim_lowStock_nan (v : String) (fd : FormData) (k : Int)
    (hin : jsParseInt fd.inStockCount = none)
    (hv : jsParseInt v = some k) (hk : 0 ≤ k) :
    validate_lowStockCount v fd = "" ∧
    validate_inStockCount fd.inStockCount ≠ "" :=
  ⟨validate_lowStockCount_nan hin hv hk, validate_inStockCount_nan hin⟩

/-- C10, instantiated at a draft with empty `inStockCount` and the
low-stock value "5". -/
theorem claim_lowStock_nan_witness :
    validate_lowStockCount "5" nanStockDraft = "" ∧
    validate_inStockCount nanStockDraft.inStockCount ≠ "" :=
  claim_lowStock_nan "5" nanStockDraft 5 (by decide) (by decide) (by decide)
